import Mathlib

/-!
Verification of `scrape_smogon_price_range.py`.

The script has two parts:

* a text extractor (`extract_price_range_from_html`, source lines 39-57)
  built from the two compiled regular expressions `PRICE_RANGE_RE`
  (source lines 29-32) and `PRICE_SINGLE_RE` (source lines 33-36);
* an enrichment pipeline (`main`, source lines 73-123) that loads a CSV
  into a dataframe, validates the URL column, initialises three output
  columns, iterates the rows fetching and extracting, and writes the
  result.

The embedding below translates the decision logic of the source.  The
calls into external libraries (BeautifulSoup's `get_text` flattening,
`requests.get`, `pandas.read_csv`/`to_csv`, `tqdm`, `time.sleep`) are
modelled as oracles or as explicit effects in an event trace.
-/

namespace Scrape

/-- Characters matched by Python's regex class `\s` (ASCII part):
space, tab, newline, carriage return, vertical tab, form feed. -/
def isPySpace (c : Char) : Bool :=
  c = ' ' || c = '\t' || c = '\n' || c = '\r' || c = '\x0b' || c = '\x0c'

/-- Decimal value of a digit run (Python `int` on a `\d+` capture). -/
def digitsToNat (ds : List Char) : Nat :=
  ds.foldl (fun a c => a * 10 + (c.toNat - 48)) 0

/-- Match a literal pattern case-insensitively (regex compiled with
`re.IGNORECASE`); on success return the remaining input. -/
def matchLitCI : List Char → List Char → Option (List Char)
  | [], s => some s
  | _ :: _, [] => none
  | p :: ps, c :: cs => if p.toLower = c.toLower then matchLitCI ps cs else none

/-- Match a single literal character; on success return the rest. -/
def matchChar (c : Char) : List Char → Option (List Char)
  | [] => none
  | x :: xs => if x = c then some xs else none

/-- Consume `\s*`: maximal run of whitespace.  In both regexes every
`\s*` is followed by a token that cannot begin with whitespace, so the
greedy maximal munch is exactly the backtracking semantics. -/
def skipSpaces : List Char → List Char
  | [] => []
  | c :: cs => if isPySpace c then skipSpaces cs else c :: cs

/-- Split off the maximal leading digit run. -/
def takeDigits : List Char → List Char × List Char
  | [] => ([], [])
  | c :: cs =>
    if c.isDigit then
      let p := takeDigits cs
      (c :: p.1, p.2)
    else ([], c :: cs)

/-- Consume `(\d+)`: at least one digit, maximal run (in both regexes
`\d+` is followed by a token that cannot begin with a digit, so the
greedy capture is the whole digit run); return its value and the rest. -/
def matchDigits (s : List Char) : Option (Nat × List Char) :=
  let p := takeDigits s
  if p.1.isEmpty then none else some (digitsToNat p.1, p.2)

/-- `PRICE_RANGE_RE` (source lines 29-32) tried at one position:
`Price Range:\s*(?P<low>\d+)\s*-\s*(?P<high>\d+)\s*points` with
`re.IGNORECASE`.  Returns the two captured integers. -/
def rangeAt (s : List Char) : Option (Nat × Nat) := do
  let s1 ← matchLitCI ("Price Range:".toList) s
  let s2 := skipSpaces s1
  let (lo, s3) ← matchDigits s2
  let s4 := skipSpaces s3
  let s5 ← matchChar '-' s4
  let s6 := skipSpaces s5
  let (hi, s7) ← matchDigits s6
  let s8 := skipSpaces s7
  let _ ← matchLitCI ("points".toList) s8
  pure (lo, hi)

/-- `PRICE_SINGLE_RE` (source lines 33-36) tried at one position:
`Price Range:\s*(?P<val>\d+)\s*points` with `re.IGNORECASE`. -/
def singleAt (s : List Char) : Option Nat := do
  let s1 ← matchLitCI ("Price Range:".toList) s
  let s2 := skipSpaces s1
  let (v, s3) ← matchDigits s2
  let s4 := skipSpaces s3
  let _ ← matchLitCI ("points".toList) s4
  pure v

/-- Python `re.search`: try the pattern at every position from left to
right and return the first (leftmost) successful match. -/
def reSearch {α : Type} (f : List Char → Option α) : List Char → Option α
  | [] => f []
  | c :: rest =>
    match f (c :: rest) with
    | some r => some r
    | none => reSearch f rest

/-- `extract_price_range_from_html` (source lines 39-57), pattern phase.
The flattening of the markup to plain text by BeautifulSoup
(`soup.get_text(separator=" ", strip=True)`, source lines 43-46) is an
external library collaborator; this definition takes the flattened text
as its input and embeds the source's own logic (lines 48-57): search
`PRICE_RANGE_RE` first, on a match return the pair; otherwise search
`PRICE_SINGLE_RE`, on a match return the value doubled; otherwise
return `None`. -/
def extract_price_range_from_html (text : String) : Option (Nat × Nat) :=
  match reSearch rangeAt text.toList with
  | some (lo, hi) => some (lo, hi)
  | none =>
    match reSearch singleAt text.toList with
    | some v => some (v, v)
    | none => none

/-! ## The enrichment pipeline (`main`, source lines 73-123)

The dataframe loaded by `pandas.read_csv` is modelled positionally: a
list of column names and a list of rows, each row a list of cells
aligned with the columns.  `requests.get`/`fetch_html` together with
BeautifulSoup's flattening are modelled by an oracle
`fetch : String → Option String` giving, for a URL, the flattened text
of the page on success and `none` on any failure (network error,
timeout, non-success HTTP status raised by `raise_for_status`, or any
other exception inside the per-row `try`).  `time.sleep` and the
request itself are recorded in an event trace. -/

/-- One dataframe cell: missing (`NaN` / `pd.NA`), a string, or an
integer. -/
inductive Cell
  | na
  | str (v : String)
  | int (v : Int)
deriving DecidableEq

/-- `pd.isna` on one cell. -/
def cellIsNA : Cell → Bool
  | .na => true
  | _ => false

/-- Python `str()` of a cell value (`str(pd.NA)` is `"<NA>"`; the NA
case is never reached in the script since `pd.isna` is tested first). -/
def cellStr : Cell → String
  | .na => "<NA>"
  | .str v => v
  | .int v => toString v

/-- Python `str.strip()`: drop leading and trailing whitespace. -/
def pyStrip (s : String) : String :=
  String.mk ((s.toList.dropWhile isPySpace).reverse.dropWhile isPySpace).reverse

/-- Source line 99: `pd.isna(url) or not str(url).strip()` — the row is
skipped (no fetch, no delay) when this is true. -/
def blankUrl (c : Cell) : Bool :=
  cellIsNA c || (pyStrip (cellStr c)).isEmpty

/-- A pandas dataframe, positional: named columns and rectangular rows. -/
structure DataFrame where
  columns : List String
  rows : List (List Cell)
deriving DecidableEq

/-- Well-formedness: every row has one cell per column. -/
def DataFrame.WF (df : DataFrame) : Prop :=
  ∀ r ∈ df.rows, r.length = df.columns.length

/-- Position of a column name (first occurrence), if present. -/
def colIdx (df : DataFrame) (c : String) : Option Nat :=
  df.columns.findIdx? (fun x => x = c)

/-- `df[name] = v` with a scalar: overwrite the column in place when it
exists, else append it as a new last column. -/
def DataFrame.setColumn (df : DataFrame) (name : String) (v : Cell) : DataFrame :=
  match colIdx df name with
  | some j => ⟨df.columns, df.rows.map (fun r => r.set j v)⟩
  | none => ⟨df.columns ++ [name], df.rows.map (fun r => r ++ [v])⟩

/-- `df.at[i, c] = v`: write one cell (the script only uses it on
columns created at lines 94-96, so the missing-column case is inert). -/
def DataFrame.setAt (df : DataFrame) (i : Nat) (c : String) (v : Cell) : DataFrame :=
  match colIdx df c with
  | some j => ⟨df.columns, df.rows.set i ((df.rows.getD i []).set j v)⟩
  | none => df

/-- Read the cell at row `i`, column `c`. -/
def DataFrame.cell (df : DataFrame) (i : Nat) (c : String) : Cell :=
  match colIdx df c with
  | some j => (df.rows.getD i []).getD j Cell.na
  | none => Cell.na

/-- `df[c]`: the values of column `c` in row order. -/
def DataFrame.col (df : DataFrame) (c : String) : List Cell :=
  match colIdx df c with
  | some j => df.rows.map (fun r => r.getD j Cell.na)
  | none => []

/-- Output column name, source line 89. -/
def low_high_col : String := "smogon_price_low_high"

/-- Output column name, source line 90. -/
def low_col : String := "smogon_price_low"

/-- Output column name, source line 91. -/
def high_col : String := "smogon_price_high"

/-- Observable per-row effects: the HTTP request and the pacing sleep. -/
inductive Event
  | request (url : String)
  | sleep (seconds : ℚ)
deriving DecidableEq

/-- Loop body, source lines 99-120, for row index `i` with URL cell
`url`: skip blank URLs entirely (`continue` at line 100 also skips the
sleep); otherwise request the trimmed URL, on success extract, on a hit
write the three cells (lines 112-114), swallow every failure (lines
116-118), and always sleep `max 0 delay` (line 120). -/
def stepRow (fetch : String → Option String) (delay : ℚ)
    (df : DataFrame) (i : Nat) (url : Cell) : DataFrame × List Event :=
  if blankUrl url then (df, [])
  else
    let u := pyStrip (cellStr url)
    let df' :=
      match fetch u with
      | none => df
      | some text =>
        match extract_price_range_from_html text with
        | none => df
        | some (lo, hi) =>
          ((df.setAt i low_high_col
              (Cell.str (toString lo ++ "-" ++ toString hi))).setAt
            i low_col (Cell.int lo)).setAt i high_col (Cell.int hi)
    (df', [Event.request u, Event.sleep (max 0 delay)])

/-- The `for` loop of source line 98: fold `stepRow` over the
materialized (index, url) list, concatenating the event traces. -/
def runRows (fetch : String → Option String) (delay : ℚ) :
    DataFrame → List (Nat × Cell) → DataFrame × List Event
  | df, [] => (df, [])
  | df, (i, url) :: rest =>
    let p := stepRow fetch delay df i url
    let q := runRows fetch delay p.1 rest
    (q.1, p.2 ++ q.2)

/-- Pair each list element with its position, starting at `n`. -/
def enumFrom : Nat → List Cell → List (Nat × Cell)
  | _, [] => []
  | n, c :: cs => (n, c) :: enumFrom (n + 1) cs

/-- `list(df[c].items())` (source line 98): the (row label, value) pairs
of column `c`; with the default `RangeIndex` of `read_csv` the labels
are the row positions. -/
def DataFrame.items (df : DataFrame) (c : String) : List (Nat × Cell) :=
  enumFrom 0 (df.col c)

/-- Python single-quoted rendering of a string, as in f-string `repr`. -/
def pyQuoted (s : String) : String := "\x27" ++ s ++ "\x27"

/-- The comma-separated quoted items of Python `repr` of a list of
strings. -/
def pyReprSeq : List String → String
  | [] => ""
  | [c] => pyQuoted c
  | c :: c2 :: cs => pyQuoted c ++ ", " ++ pyReprSeq (c2 :: cs)

/-- Python `repr` of a list of strings, as produced by
`{list(df.columns)}` in the f-string at line 86. -/
def pyListRepr (cols : List String) : String :=
  "[" ++ pyReprSeq cols ++ "]"

/-- The `SystemExit` message of source lines 85-87. -/
def urlColErrorMsg (urlCol : String) (cols : List String) : String :=
  "URL column " ++ pyQuoted urlCol ++ " not found. Available columns: " ++
    pyListRepr cols

/-- Source lines 94-96: initialize the three output columns on every
row to their defaults (`"N/A"`, `pd.NA`, `pd.NA`). -/
def initCols (df : DataFrame) : DataFrame :=
  ((df.setColumn low_high_col (Cell.str "N/A")).setColumn low_col Cell.na).setColumn
    high_col Cell.na

/-- `main` after `read_csv` (source lines 84-122): abort with the
descriptive message when the URL column is absent (lines 84-87, before
any row processing and before any output is written); otherwise
initialize the output columns, run the loop over the materialized
items of the URL column, and return the dataframe that `to_csv` writes
(line 122) together with the event trace. -/
def mainRun (fetch : String → Option String) (urlCol : String) (delay : ℚ)
    (df : DataFrame) : Except String (DataFrame × List Event) :=
  if urlCol ∈ df.columns then
    let df1 := initCols df
    Except.ok (runRows fetch delay df1 (df1.items urlCol))
  else
    Except.error (urlColErrorMsg urlCol df.columns)

/-- Net effect of one loop iteration on the dataframe: `none` when the
URL is blank, the fetch fails, or extraction misses (the row keeps its
defaults); `some (lo, hi)` when a price range is written. -/
def rowOutcome (fetch : String → Option String) (url : Cell) : Option (Nat × Nat) :=
  if blankUrl url then none
  else
    match fetch (pyStrip (cellStr url)) with
    | none => none
    | some text => extract_price_range_from_html text

/-- The output columns that are new relative to an input header, in the
order lines 94-96 create them. -/
def addedCols (cols : List String) : List String :=
  (if low_high_col ∈ cols then [] else [low_high_col]) ++
    (if low_col ∈ cols then [] else [low_col]) ++
    (if high_col ∈ cols then [] else [high_col])

/-- The URLs the loop actually requests, in row order: the trimmed
non-blank entries of the URL column as the loop reads it (line 98, after
the initialization of lines 94-96). -/
def fetchedUrls (df : DataFrame) (urlCol : String) : List String :=
  ((initCols df).col urlCol).filterMap
    (fun c => if blankUrl c then none else some (pyStrip (cellStr c)))

/-- The three output cells of row `i` as the loop leaves them: either
all three at their defaults, or all three set together from one
extracted pair, the label being exactly `"{low}-{high}"` (lines 112-114). -/
def rowConsistent (df : DataFrame) (i : Nat) : Prop :=
  (df.cell i low_high_col = Cell.str "N/A" ∧ df.cell i low_col = Cell.na ∧
      df.cell i high_col = Cell.na) ∨
    ∃ lo hi : Nat,
      df.cell i low_high_col = Cell.str (toString lo ++ "-" ++ toString hi) ∧
        df.cell i low_col = Cell.int lo ∧ df.cell i high_col = Cell.int hi

/-- If the pattern matches at position `i` and at no earlier position,
`reSearch` returns that match (leftmost-match semantics of `re.search`). -/
theorem reSearch_of_first {α : Type} (f : List Char → Option α) (s : List Char) :
    ∀ (i : Nat) (r : α), f (s.drop i) = some r → (∀ j, j < i → f (s.drop j) = none) →
    reSearch f s = some r := by
  induction s with
  | nil =>
    intro i r h _
    simp only [List.drop_nil] at h
    simp [reSearch, h]
  | cons c rest ih =>
    intro i r h hfirst
    cases i with
    | zero =>
      simp only [List.drop_zero] at h
      simp [reSearch, h]
    | succ i =>
      have h0 : f (c :: rest) = none := by simpa using hfirst 0 (Nat.succ_pos i)
      have hr := ih i r (by simpa using h) (fun j hj => by simpa using hfirst (j + 1) (by omega))
      simp [reSearch, h0, hr]

/-- If the pattern matches at some position, `reSearch` finds a match. -/
theorem reSearch_isSome {α : Type} (f : List Char → Option α) (s : List Char) :
    ∀ (i : Nat) (r : α), f (s.drop i) = some r → ∃ r', reSearch f s = some r' := by
  induction s with
  | nil =>
    intro i r h
    simp only [List.drop_nil] at h
    exact ⟨r, by simp [reSearch, h]⟩
  | cons c rest ih =>
    intro i r h
    cases hf : f (c :: rest) with
    | some r' => exact ⟨r', by simp [reSearch, hf]⟩
    | none =>
      cases i with
      | zero =>
        simp only [List.drop_zero] at h
        rw [h] at hf
        cases hf
      | succ i =>
        obtain ⟨r', hr⟩ := ih i r (by simpa using h)
        exact ⟨r', by simp [reSearch, hf, hr]⟩

/-- If the pattern matches at no position, `reSearch` returns `none`. -/
theorem reSearch_eq_none {α : Type} (f : List Char → Option α) (s : List Char)
    (h : ∀ i, f (s.drop i) = none) : reSearch f s = none := by
  induction s with
  | nil => simpa [reSearch] using h 0
  | cons c rest ih =>
    have h0 := h 0
    simp only [List.drop_zero] at h0
    simp [reSearch, h0, ih (fun i => by simpa using h (i + 1))]

/-- C1: for every markup string whose flattened text contains a match of
pattern A (`Price Range:` integer hyphen integer `points`, case-insensitive,
arbitrary inner whitespace), `extract_price_range_from_html` returns the
pair of the two integers captured by the first such match in document
order: if pattern A matches at position `i` of the flattened text and at
no earlier position, the result is the pair captured there. -/
theorem C1_range_first_match (text : String) (i lo hi : Nat)
    (h : rangeAt (text.toList.drop i) = some (lo, hi))
    (hfirst : ∀ j, j < i → rangeAt (text.toList.drop j) = none) :
    extract_price_range_from_html text = some (lo, hi) := by
  unfold extract_price_range_from_html
  rw [reSearch_of_first rangeAt text.toList i (lo, hi) h hfirst]

/-- Witness for C1: the flattened text `"foo PRICE range:  8 - 9  Points bar"`
has its first pattern-A match at position 4, capturing (8, 9), and
extraction returns (8, 9). -/
theorem C1_range_first_match_witness :
    extract_price_range_from_html "foo PRICE range:  8 - 9  Points bar" = some (8, 9) :=
  C1_range_first_match "foo PRICE range:  8 - 9  Points bar" 4 8 9 (by decide) (by decide)

/-- C2: pattern A is checked first, unconditionally over the whole
flattened text: (1) whenever pattern A's search succeeds, its result is
what extraction returns — regardless of pattern B — and if pattern A
matches anywhere then extraction returns pattern A's search result;
(2) when pattern A matches nowhere, a first pattern-B match `v` makes
extraction return `(v, v)`; (3) when neither pattern matches anywhere,
extraction returns `none` (absence, not an error). -/
theorem C2_pattern_priority (text : String) :
    ((∀ r, reSearch rangeAt text.toList = some r →
        extract_price_range_from_html text = some r) ∧
      ((∃ i r, rangeAt (text.toList.drop i) = some r) →
        ∃ r, extract_price_range_from_html text = some r ∧
          reSearch rangeAt text.toList = some r)) ∧
    ((∀ i, rangeAt (text.toList.drop i) = none) →
      ∀ i v, singleAt (text.toList.drop i) = some v →
        (∀ j, j < i → singleAt (text.toList.drop j) = none) →
        extract_price_range_from_html text = some (v, v)) ∧
    ((∀ i, rangeAt (text.toList.drop i) = none) →
      (∀ i, singleAt (text.toList.drop i) = none) →
      extract_price_range_from_html text = none) := by
  refine ⟨⟨?_, ?_⟩, ?_, ?_⟩
  · intro r h
    unfold extract_price_range_from_html
    rw [h]
  · rintro ⟨i, r, h⟩
    obtain ⟨r', hr⟩ := reSearch_isSome rangeAt text.toList i r h
    refine ⟨r', ?_, hr⟩
    unfold extract_price_range_from_html
    rw [hr]
  · intro hA i v h hfirst
    unfold extract_price_range_from_html
    rw [reSearch_eq_none rangeAt text.toList hA,
      reSearch_of_first singleAt text.toList i v h hfirst]
  · intro hA hB
    unfold extract_price_range_from_html
    rw [reSearch_eq_none rangeAt text.toList hA,
      reSearch_eq_none singleAt text.toList hB]

/-- Witness for C2: in a text where a single-value (pattern B) phrase
appears before a range (pattern A) phrase, pattern A still wins. -/
theorem C2_pattern_priority_witness :
    extract_price_range_from_html
      "Price Range: 5 points zzz Price Range: 8-9 points" = some (8, 9) :=
  (C2_pattern_priority "Price Range: 5 points zzz Price Range: 8-9 points").1.1
    (8, 9) (by decide)

/-- Counterexample to C3: `extract_price_range_from_html` applied to the
flattened text `"Price Range: 9-3 points"` returns the pair (9, 3), and
9 ≤ 3 fails — the code performs no low ≤ high validation on pattern-A
captures. -/
theorem C3_counterexample :
    extract_price_range_from_html "Price Range: 9-3 points" = some (9, 3) ∧
      ¬ (9 ≤ 3) := by
  constructor
  · decide
  · omega

/-- C3 (amended): whenever `extract_price_range_from_html` returns a pair
without pattern A matching anywhere (the single-value pattern-B case),
the pair has low = high, hence low ≤ high; pattern-A captures are
returned without any low ≤ high validation. -/
theorem C3_single_low_le_high (text : String) (lo hi : Nat)
    (hA : reSearch rangeAt text.toList = none)
    (h : extract_price_range_from_html text = some (lo, hi)) :
    lo = hi ∧ lo ≤ hi := by
  unfold extract_price_range_from_html at h
  rw [hA] at h
  cases hs : reSearch singleAt text.toList with
  | none => rw [hs] at h; cases h
  | some v =>
    rw [hs] at h
    have hv : v = lo ∧ v = hi := by
      constructor <;> [exact congrArg (fun p => (Option.getD p (0, 0)).1) h;
        exact congrArg (fun p => (Option.getD p (0, 0)).2) h]
    omega

/-- Witness for C3 (amended): on `"Price Range: 5 points"` pattern A has
no match, extraction returns (5, 5), and the amended invariant holds. -/
theorem C3_single_low_le_high_witness :
    reSearch rangeAt ("Price Range: 5 points").toList = none ∧
      extract_price_range_from_html "Price Range: 5 points" = some (5, 5) ∧
      5 = 5 ∧ 5 ≤ 5 :=
  ⟨by decide, by decide,
    C3_single_low_le_high "Price Range: 5 points" 5 5 (by decide) (by decide)⟩

/-! ## Dataframe access lemmas -/

theorem colIdx_spec {df : DataFrame} {c : String} {j : Nat} (h : colIdx df c = some j) :
    j < df.columns.length ∧ df.columns[j]? = some c := by
  unfold colIdx at h
  rw [List.findIdx?_eq_some_iff_getElem] at h
  obtain ⟨hlt, hp, -⟩ := h
  refine ⟨hlt, ?_⟩
  have hc : df.columns[j] = c := by simpa using hp
  rw [List.getElem?_eq_getElem hlt, hc]

theorem colIdx_inj {df : DataFrame} {c c' : String} {j j' : Nat}
    (h : colIdx df c = some j) (h' : colIdx df c' = some j') (hne : c ≠ c') :
    j ≠ j' := by
  intro hjj
  subst hjj
  have h1 := (colIdx_spec h).2
  have h2 := (colIdx_spec h').2
  rw [h1] at h2
  exact hne (Option.some.inj h2)

theorem colIdx_isSome_iff_mem (df : DataFrame) (c : String) :
    (colIdx df c).isSome ↔ c ∈ df.columns := by
  unfold colIdx
  cases h : df.columns.findIdx? (fun x => x = c) with
  | none =>
    rw [List.findIdx?_eq_none_iff] at h
    simp only [Option.isSome_none, Bool.false_eq_true, false_iff]
    intro hc
    have := h c hc
    simp at this
  | some j =>
    simp only [Option.isSome_some, true_iff]
    have h2 := (colIdx_spec (show colIdx df c = some j from h)).2
    exact List.getElem?_mem h2

theorem colIdx_eq_none_of_not_mem {df : DataFrame} {c : String} (h : c ∉ df.columns) :
    colIdx df c = none := by
  cases hx : colIdx df c with
  | none => rfl
  | some j =>
    exact absurd ((colIdx_isSome_iff_mem df c).1 (by simp [hx])) h

theorem colIdx_of_mem {df : DataFrame} {c : String} (h : c ∈ df.columns) :
    ∃ j, colIdx df c = some j := by
  have := (colIdx_isSome_iff_mem df c).2 h
  exact Option.isSome_iff_exists.1 this

/-- `cell` when the column is present at index `j`. -/
theorem cell_of_colIdx {df : DataFrame} {c : String} {j : Nat}
    (hj : colIdx df c = some j) (i : Nat) :
    df.cell i c = (df.rows[i]?.getD []).getD j Cell.na := by
  unfold DataFrame.cell
  rw [hj]
  simp

/-- `cell` when the column is absent. -/
theorem cell_of_colIdx_none {df : DataFrame} {c : String}
    (hj : colIdx df c = none) (i : Nat) : df.cell i c = Cell.na := by
  unfold DataFrame.cell
  rw [hj]

/-- `setAt` when the column is present at index `j`. -/
theorem setAt_of_colIdx {df : DataFrame} {c : String} {j : Nat}
    (hj : colIdx df c = some j) (i : Nat) (v : Cell) :
    df.setAt i c v =
      ⟨df.columns, df.rows.set i ((df.rows[i]?.getD []).set j v)⟩ := by
  unfold DataFrame.setAt
  rw [hj]
  simp

/-- `setAt` when the column is absent is the identity. -/
theorem setAt_of_colIdx_none {df : DataFrame} {c : String}
    (hj : colIdx df c = none) (i : Nat) (v : Cell) : df.setAt i c v = df := by
  unfold DataFrame.setAt
  rw [hj]

theorem setAt_columns (df : DataFrame) (i : Nat) (c : String) (v : Cell) :
    (df.setAt i c v).columns = df.columns := by
  unfold DataFrame.setAt
  cases colIdx df c <;> rfl

theorem setAt_rows_length (df : DataFrame) (i : Nat) (c : String) (v : Cell) :
    (df.setAt i c v).rows.length = df.rows.length := by
  unfold DataFrame.setAt
  cases colIdx df c <;> simp

theorem colIdx_setAt (df : DataFrame) (i : Nat) (c c' : String) (v : Cell) :
    colIdx (df.setAt i c v) c' = colIdx df c' := by
  unfold colIdx
  rw [setAt_columns]

theorem setAt_WF {df : DataFrame} (hwf : df.WF) (i : Nat) (c : String) (v : Cell) :
    (df.setAt i c v).WF := by
  cases hj : colIdx df c with
  | none => rw [setAt_of_colIdx_none hj]; exact hwf
  | some j =>
    rw [setAt_of_colIdx hj]
    unfold DataFrame.WF
    intro r hr
    simp only at hr
    by_cases hi : i < df.rows.length
    · rcases List.mem_or_eq_of_mem_set hr with hmem | rfl
      · exact hwf r hmem
      · rw [List.length_set]
        have hrow : df.rows[i]?.getD [] = df.rows[i] := by
          simp [List.getElem?_eq_getElem hi]
        rw [hrow]
        exact hwf _ (List.getElem_mem hi)
    · rw [List.set_eq_of_length_le (by omega)] at hr
      exact hwf r hr

theorem setAt_cell_same {df : DataFrame} {c : String} {j : Nat}
    (hj : colIdx df c = some j) (hwf : df.WF) {i : Nat} (hi : i < df.rows.length)
    (v : Cell) : (df.setAt i c v).cell i c = v := by
  have hjl : j < df.columns.length := (colIdx_spec hj).1
  have hrow : df.rows[i]?.getD [] = df.rows[i] := by
    simp [List.getElem?_eq_getElem hi]
  have hrl : (df.rows[i]?.getD []).length = df.columns.length := by
    rw [hrow]
    exact hwf _ (List.getElem_mem hi)
  rw [cell_of_colIdx (by rw [colIdx_setAt]; exact hj) i, setAt_of_colIdx hj]
  simp only [List.getElem?_set_self (by simpa using hi), Option.getD_some,
    List.getD_eq_getElem?_getD]
  rw [List.getElem?_set_self (by omega)]
  simp

theorem setAt_cell_other_row {df : DataFrame} {i i' : Nat} (hne : i' ≠ i)
    (c c' : String) (v : Cell) : (df.setAt i c v).cell i' c' = df.cell i' c' := by
  cases hj : colIdx df c with
  | none => rw [setAt_of_colIdx_none hj]
  | some j =>
    cases hj' : colIdx df c' with
    | none =>
      rw [cell_of_colIdx_none (by rw [colIdx_setAt]; exact hj') i',
        cell_of_colIdx_none hj' i']
    | some j' =>
      rw [cell_of_colIdx (by rw [colIdx_setAt]; exact hj') i',
        cell_of_colIdx hj' i', setAt_of_colIdx hj]
      simp only [List.getElem?_set_ne (by omega : i ≠ i')]

theorem setAt_cell_other_col {df : DataFrame} {c c' : String} (hne : c' ≠ c)
    (i i' : Nat) (v : Cell) : (df.setAt i c v).cell i' c' = df.cell i' c' := by
  cases hj : colIdx df c with
  | none => rw [setAt_of_colIdx_none hj]
  | some j =>
    cases hj' : colIdx df c' with
    | none =>
      rw [cell_of_colIdx_none (by rw [colIdx_setAt]; exact hj') i',
        cell_of_colIdx_none hj' i']
    | some j' =>
      have hjj : j ≠ j' := colIdx_inj hj hj' (fun h => hne h.symm)
      rw [cell_of_colIdx (by rw [colIdx_setAt]; exact hj') i',
        cell_of_colIdx hj' i', setAt_of_colIdx hj]
      by_cases hii : i' = i
      · subst hii
        by_cases hi : i' < df.rows.length
        · simp only [List.getElem?_set_self (by simpa using hi), Option.getD_some,
            List.getD_eq_getElem?_getD]
          rw [List.getElem?_set_ne hjj]
        · rw [List.set_eq_of_length_le (by omega)]
      · simp only [List.getElem?_set_ne (by omega : i ≠ i')]

theorem findIdx_append_single {cols : List String} {c : String} (h : c ∉ cols) :
    (cols ++ [c]).findIdx? (fun x => x = c) = some cols.length := by
  rw [List.findIdx?_append]
  have h1 : cols.findIdx? (fun x => x = c) = none := by
    rw [List.findIdx?_eq_none_iff]
    intro x hx
    simp only [decide_eq_false_iff_not]
    rintro rfl
    exact h hx
  rw [h1]
  simp [List.findIdx?]

theorem findIdx_append_of_some {cols rest : List String} {c : String} {j : Nat}
    (h : cols.findIdx? (fun x => x = c) = some j) :
    (cols ++ rest).findIdx? (fun x => x = c) = some j := by
  rw [List.findIdx?_append, h]
  rfl

theorem setColumn_of_colIdx {df : DataFrame} {name : String} {j : Nat}
    (hj : colIdx df name = some j) (v : Cell) :
    df.setColumn name v = ⟨df.columns, df.rows.map (fun r => r.set j v)⟩ := by
  unfold DataFrame.setColumn
  rw [hj]

theorem setColumn_of_colIdx_none {df : DataFrame} {name : String}
    (hj : colIdx df name = none) (v : Cell) :
    df.setColumn name v = ⟨df.columns ++ [name], df.rows.map (fun r => r ++ [v])⟩ := by
  unfold DataFrame.setColumn
  rw [hj]

theorem setColumn_columns (df : DataFrame) (name : String) (v : Cell) :
    (df.setColumn name v).columns =
      if name ∈ df.columns then df.columns else df.columns ++ [name] := by
  by_cases h : name ∈ df.columns
  · obtain ⟨j, hj⟩ := colIdx_of_mem h
    rw [setColumn_of_colIdx hj, if_pos h]
  · rw [setColumn_of_colIdx_none (colIdx_eq_none_of_not_mem h), if_neg h]

theorem setColumn_rows_length (df : DataFrame) (name : String) (v : Cell) :
    (df.setColumn name v).rows.length = df.rows.length := by
  unfold DataFrame.setColumn
  cases colIdx df name <;> simp

theorem mem_setColumn_columns (df : DataFrame) (name c : String) (v : Cell) :
    c ∈ (df.setColumn name v).columns ↔ c ∈ df.columns ∨ c = name := by
  rw [setColumn_columns]
  by_cases h : name ∈ df.columns
  · rw [if_pos h]
    constructor
    · exact Or.inl
    · rintro (hc | rfl)
      · exact hc
      · exact h
  · rw [if_neg h]
    simp

theorem setColumn_WF {df : DataFrame} (hwf : df.WF) (name : String) (v : Cell) :
    (df.setColumn name v).WF := by
  cases hj : colIdx df name with
  | some j =>
    rw [setColumn_of_colIdx hj]
    intro r hr
    simp only [List.mem_map] at hr
    obtain ⟨r0, hr0, rfl⟩ := hr
    simp [hwf r0 hr0]
  | none =>
    rw [setColumn_of_colIdx_none hj]
    intro r hr
    simp only [List.mem_map] at hr
    obtain ⟨r0, hr0, rfl⟩ := hr
    simp [hwf r0 hr0]

theorem setColumn_cell_same {df : DataFrame} (hwf : df.WF) {i : Nat}
    (hi : i < df.rows.length) (name : String) (v : Cell) :
    (df.setColumn name v).cell i name = v := by
  have hri : df.rows[i]? = some df.rows[i] := List.getElem?_eq_getElem hi
  have hrlen : df.rows[i].length = df.columns.length := hwf _ (List.getElem_mem hi)
  cases hj : colIdx df name with
  | some j =>
    have hjl : j < df.columns.length := (colIdx_spec hj).1
    rw [setColumn_of_colIdx hj,
      cell_of_colIdx (show colIdx (⟨df.columns,
        df.rows.map (fun r => r.set j v)⟩ : DataFrame) name = some j from hj) i]
    simp only [List.getElem?_map, hri, Option.map_some', Option.getD_some,
      List.getD_eq_getElem?_getD]
    rw [List.getElem?_set_self (by omega)]
    rfl
  | none =>
    have hnm : name ∉ df.columns := by
      intro hm
      obtain ⟨j, hj2⟩ := colIdx_of_mem hm
      rw [hj2] at hj
      cases hj
    rw [setColumn_of_colIdx_none hj]
    have hidx : colIdx ⟨df.columns ++ [name], df.rows.map (fun r => r ++ [v])⟩ name =
        some df.columns.length := findIdx_append_single hnm
    rw [cell_of_colIdx hidx i]
    simp only [List.getElem?_map, hri, Option.map_some', Option.getD_some,
      List.getD_eq_getElem?_getD]
    rw [List.getElem?_append_right (by omega)]
    have h0 : df.columns.length - df.rows[i].length = 0 := by omega
    rw [h0]
    rfl

theorem setColumn_cell_other {df : DataFrame} (hwf : df.WF) {name c : String}
    (hne : c ≠ name) (i : Nat) (v : Cell) :
    (df.setColumn name v).cell i c = df.cell i c := by
  cases hj : colIdx df name with
  | some j =>
    rw [setColumn_of_colIdx hj]
    cases hc : colIdx df c with
    | none =>
      rw [cell_of_colIdx_none (show colIdx (⟨df.columns,
        df.rows.map (fun r => r.set j v)⟩ : DataFrame) c = none from hc),
        cell_of_colIdx_none hc]
    | some j' =>
      have hjj : j' ≠ j := colIdx_inj hc hj hne
      rw [cell_of_colIdx (show colIdx (⟨df.columns,
        df.rows.map (fun r => r.set j v)⟩ : DataFrame) c = some j' from hc) i,
        cell_of_colIdx hc i]
      simp only [List.getElem?_map]
      cases hri : df.rows[i]? with
      | none => rfl
      | some r =>
        simp only [Option.map_some', Option.getD_some, List.getD_eq_getElem?_getD]
        rw [List.getElem?_set_ne (by omega)]
  | none =>
    have hnm : name ∉ df.columns := by
      intro hm
      obtain ⟨jx, hj2⟩ := colIdx_of_mem hm
      rw [hj2] at hj
      cases hj
    rw [setColumn_of_colIdx_none hj]
    cases hc : colIdx df c with
    | none =>
      have hc2 : colIdx ⟨df.columns ++ [name], df.rows.map (fun r => r ++ [v])⟩ c = none := by
        unfold colIdx at hc ⊢
        rw [List.findIdx?_eq_none_iff] at hc ⊢
        intro x hx
        rcases List.mem_append.1 hx with hx1 | hx2
        · exact hc x hx1
        · simp only [List.mem_singleton] at hx2
          subst hx2
          simp only [decide_eq_false_iff_not]
          exact fun hh => hne hh.symm
      rw [cell_of_colIdx_none hc2, cell_of_colIdx_none hc]
    | some j' =>
      have hc2 : colIdx ⟨df.columns ++ [name], df.rows.map (fun r => r ++ [v])⟩ c = some j' :=
        findIdx_append_of_some hc
      have hjl : j' < df.columns.length := (colIdx_spec hc).1
      rw [cell_of_colIdx hc2 i, cell_of_colIdx hc i]
      simp only [List.getElem?_map]
      cases hri : df.rows[i]? with
      | none => rfl
      | some r =>
        have hrlen : r.length = df.columns.length := hwf r (List.getElem?_mem hri)
        simp only [Option.map_some', Option.getD_some, List.getD_eq_getElem?_getD]
        rw [List.getElem?_append_left (by omega)]

theorem setColumn_col_other {df : DataFrame} (hwf : df.WF) {name c : String}
    (hne : c ≠ name) (v : Cell) :
    (df.setColumn name v).col c = df.col c := by
  cases hj : colIdx df name with
  | some j =>
    rw [setColumn_of_colIdx hj]
    cases hc : colIdx df c with
    | none =>
      unfold DataFrame.col
      rw [show colIdx ⟨df.columns, df.rows.map (fun r => r.set j v)⟩ c = none from hc, hc]
    | some j' =>
      have hjj : j' ≠ j := colIdx_inj hc hj hne
      unfold DataFrame.col
      rw [show colIdx ⟨df.columns, df.rows.map (fun r => r.set j v)⟩ c = some j' from hc, hc]
      simp only [List.map_map]
      apply List.map_congr_left
      intro r hr
      simp only [Function.comp_apply, List.getD_eq_getElem?_getD]
      rw [List.getElem?_set_ne (by omega)]
  | none =>
    have hnm : name ∉ df.columns := by
      intro hm
      obtain ⟨jx, hj2⟩ := colIdx_of_mem hm
      rw [hj2] at hj
      cases hj
    rw [setColumn_of_colIdx_none hj]
    cases hc : colIdx df c with
    | none =>
      have hc2 : colIdx ⟨df.columns ++ [name], df.rows.map (fun r => r ++ [v])⟩ c = none := by
        unfold colIdx at hc ⊢
        rw [List.findIdx?_eq_none_iff] at hc ⊢
        intro x hx
        rcases List.mem_append.1 hx with hx1 | hx2
        · exact hc x hx1
        · simp only [List.mem_singleton] at hx2
          subst hx2
          simp only [decide_eq_false_iff_not]
          exact fun hh => hne hh.symm
      unfold DataFrame.col
      rw [hc2, hc]
    | some j' =>
      have hc2 : colIdx ⟨df.columns ++ [name], df.rows.map (fun r => r ++ [v])⟩ c = some j' :=
        findIdx_append_of_some hc
      have hjl : j' < df.columns.length := (colIdx_spec hc).1
      unfold DataFrame.col
      rw [hc2, hc]
      simp only [List.map_map]
      apply List.map_congr_left
      intro r hr
      have hrlen : r.length = df.columns.length := hwf r hr
      simp only [Function.comp_apply, List.getD_eq_getElem?_getD]
      rw [List.getElem?_append_left (by omega)]

/-! ## Initialization lemmas (source lines 94-96) -/

theorem initCols_columns (df : DataFrame) :
    (initCols df).columns = df.columns ++ addedCols df.columns := by
  have hne1 : low_col ≠ low_high_col := by decide
  have hne2 : high_col ≠ low_high_col := by decide
  have hne3 : high_col ≠ low_col := by decide
  unfold initCols
  rw [setColumn_columns, setColumn_columns, setColumn_columns]
  unfold addedCols
  by_cases h1 : low_high_col ∈ df.columns <;>
    by_cases h2 : low_col ∈ df.columns <;>
      by_cases h3 : high_col ∈ df.columns <;>
        simp [h1, h2, h3, hne1, hne2, hne3, List.append_assoc]

theorem initCols_WF {df : DataFrame} (hwf : df.WF) : (initCols df).WF :=
  setColumn_WF (setColumn_WF (setColumn_WF hwf _ _) _ _) _ _

theorem initCols_rows_length (df : DataFrame) :
    (initCols df).rows.length = df.rows.length := by
  unfold initCols
  rw [setColumn_rows_length, setColumn_rows_length, setColumn_rows_length]

theorem initCols_cell_defaults {df : DataFrame} (hwf : df.WF) {i : Nat}
    (hi : i < df.rows.length) :
    (initCols df).cell i low_high_col = Cell.str "N/A" ∧
      (initCols df).cell i low_col = Cell.na ∧
      (initCols df).cell i high_col = Cell.na := by
  have hwf1 : (df.setColumn low_high_col (Cell.str "N/A")).WF := setColumn_WF hwf _ _
  have hwf2 : ((df.setColumn low_high_col (Cell.str "N/A")).setColumn low_col Cell.na).WF :=
    setColumn_WF hwf1 _ _
  have hl1 : (df.setColumn low_high_col (Cell.str "N/A")).rows.length = df.rows.length :=
    setColumn_rows_length _ _ _
  have hl2 : ((df.setColumn low_high_col (Cell.str "N/A")).setColumn low_col
      Cell.na).rows.length = df.rows.length := by
    rw [setColumn_rows_length, hl1]
  refine ⟨?_, ?_, ?_⟩
  · unfold initCols
    rw [setColumn_cell_other hwf2 (by decide) i, setColumn_cell_other hwf1 (by decide) i,
      setColumn_cell_same hwf hi _ _]
  · unfold initCols
    rw [setColumn_cell_other hwf2 (by decide) i,
      setColumn_cell_same hwf1 (by omega) _ _]
  · unfold initCols
    rw [setColumn_cell_same hwf2 (by omega) _ _]

theorem initCols_cell_other {df : DataFrame} (hwf : df.WF) {c : String}
    (h1 : c ≠ low_high_col) (h2 : c ≠ low_col) (h3 : c ≠ high_col) (i : Nat) :
    (initCols df).cell i c = df.cell i c := by
  have hwf1 : (df.setColumn low_high_col (Cell.str "N/A")).WF := setColumn_WF hwf _ _
  have hwf2 : ((df.setColumn low_high_col (Cell.str "N/A")).setColumn low_col Cell.na).WF :=
    setColumn_WF hwf1 _ _
  unfold initCols
  rw [setColumn_cell_other hwf2 h3 i, setColumn_cell_other hwf1 h2 i,
    setColumn_cell_other hwf h1 i]

theorem initCols_col_other {df : DataFrame} (hwf : df.WF) {c : String}
    (h1 : c ≠ low_high_col) (h2 : c ≠ low_col) (h3 : c ≠ high_col) :
    (initCols df).col c = df.col c := by
  have hwf1 : (df.setColumn low_high_col (Cell.str "N/A")).WF := setColumn_WF hwf _ _
  have hwf2 : ((df.setColumn low_high_col (Cell.str "N/A")).setColumn low_col Cell.na).WF :=
    setColumn_WF hwf1 _ _
  unfold initCols
  rw [setColumn_col_other hwf2 h3 _, setColumn_col_other hwf1 h2 _,
    setColumn_col_other hwf h1 _]

theorem mem_initCols_columns (df : DataFrame) (c : String) :
    c ∈ (initCols df).columns ↔
      c ∈ df.columns ∨ c = low_high_col ∨ c = low_col ∨ c = high_col := by
  unfold initCols
  rw [mem_setColumn_columns, mem_setColumn_columns, mem_setColumn_columns]
  tauto

theorem initCols_colIdx_isSome (df : DataFrame) :
    (colIdx (initCols df) low_high_col).isSome ∧
      (colIdx (initCols df) low_col).isSome ∧
      (colIdx (initCols df) high_col).isSome := by
  refine ⟨?_, ?_, ?_⟩ <;> rw [colIdx_isSome_iff_mem, mem_initCols_columns] <;> simp

/-! ## Loop body lemmas (source lines 99-120) -/

theorem stepRow_of_blank {fetch : String → Option String} {delay : ℚ}
    {df : DataFrame} {i : Nat} {url : Cell} (h : blankUrl url = true) :
    stepRow fetch delay df i url = (df, []) := by
  unfold stepRow
  rw [if_pos h]

theorem stepRow_events {fetch : String → Option String} {delay : ℚ}
    {df : DataFrame} {i : Nat} {url : Cell} (h : blankUrl url = false) :
    (stepRow fetch delay df i url).2 =
      [Event.request (pyStrip (cellStr url)), Event.sleep (max 0 delay)] := by
  unfold stepRow
  rw [if_neg (by simp [h])]

theorem stepRow_fst_of_outcome_none {fetch : String → Option String} {delay : ℚ}
    {df : DataFrame} {i : Nat} {url : Cell} (h : rowOutcome fetch url = none) :
    (stepRow fetch delay df i url).1 = df := by
  unfold rowOutcome at h
  by_cases hb : blankUrl url
  · rw [stepRow_of_blank hb]
  · rw [if_neg hb] at h
    cases hf : fetch (pyStrip (cellStr url)) with
    | none => simp [stepRow, hb, hf]
    | some t =>
      rw [hf] at h
      simp only [] at h
      simp [stepRow, hb, hf, h]

theorem stepRow_fst_of_outcome_some {fetch : String → Option String} {delay : ℚ}
    {df : DataFrame} {i : Nat} {url : Cell} {lo hi : Nat}
    (h : rowOutcome fetch url = some (lo, hi)) :
    blankUrl url = false ∧
      (stepRow fetch delay df i url).1 =
        ((df.setAt i low_high_col
            (Cell.str (toString lo ++ "-" ++ toString hi))).setAt
          i low_col (Cell.int lo)).setAt i high_col (Cell.int hi) := by
  unfold rowOutcome at h
  by_cases hb : blankUrl url
  · rw [if_pos hb] at h
    cases h
  · refine ⟨by simpa using hb, ?_⟩
    rw [if_neg hb] at h
    cases hf : fetch (pyStrip (cellStr url)) with
    | none =>
      rw [hf] at h
      cases h
    | some t =>
      rw [hf] at h
      simp only [] at h
      simp [stepRow, hb, hf, h]

theorem stepRow_columns (fetch : String → Option String) (delay : ℚ)
    (df : DataFrame) (i : Nat) (url : Cell) :
    (stepRow fetch delay df i url).1.columns = df.columns := by
  cases ho : rowOutcome fetch url with
  | none => rw [stepRow_fst_of_outcome_none ho]
  | some p =>
    obtain ⟨lo, hi⟩ := p
    rw [(stepRow_fst_of_outcome_some ho).2, setAt_columns, setAt_columns, setAt_columns]

theorem stepRow_rows_length (fetch : String → Option String) (delay : ℚ)
    (df : DataFrame) (i : Nat) (url : Cell) :
    (stepRow fetch delay df i url).1.rows.length = df.rows.length := by
  cases ho : rowOutcome fetch url with
  | none => rw [stepRow_fst_of_outcome_none ho]
  | some p =>
    obtain ⟨lo, hi⟩ := p
    rw [(stepRow_fst_of_outcome_some ho).2, setAt_rows_length, setAt_rows_length,
      setAt_rows_length]

theorem stepRow_WF {fetch : String → Option String} {delay : ℚ}
    {df : DataFrame} (hwf : df.WF) (i : Nat) (url : Cell) :
    (stepRow fetch delay df i url).1.WF := by
  cases ho : rowOutcome fetch url with
  | none => rw [stepRow_fst_of_outcome_none ho]; exact hwf
  | some p =>
    obtain ⟨lo, hi⟩ := p
    rw [(stepRow_fst_of_outcome_some ho).2]
    exact setAt_WF (setAt_WF (setAt_WF hwf _ _ _) _ _ _) _ _ _

theorem colIdx_stepRow (fetch : String → Option String) (delay : ℚ)
    (df : DataFrame) (i : Nat) (url : Cell) (c : String) :
    colIdx (stepRow fetch delay df i url).1 c = colIdx df c := by
  unfold colIdx
  rw [stepRow_columns]

theorem stepRow_cell_other_row {fetch : String → Option String} {delay : ℚ}
    {df : DataFrame} {i i' : Nat} (hne : i' ≠ i) (url : Cell) (c : String) :
    (stepRow fetch delay df i url).1.cell i' c = df.cell i' c := by
  cases ho : rowOutcome fetch url with
  | none => rw [stepRow_fst_of_outcome_none ho]
  | some p =>
    obtain ⟨lo, hi⟩ := p
    rw [(stepRow_fst_of_outcome_some ho).2, setAt_cell_other_row hne _ _ _,
      setAt_cell_other_row hne _ _ _, setAt_cell_other_row hne _ _ _]

theorem stepRow_cell_other_col {fetch : String → Option String} {delay : ℚ}
    {df : DataFrame} {i : Nat} {url : Cell} {c : String}
    (h1 : c ≠ low_high_col) (h2 : c ≠ low_col) (h3 : c ≠ high_col) (i' : Nat) :
    (stepRow fetch delay df i url).1.cell i' c = df.cell i' c := by
  cases ho : rowOutcome fetch url with
  | none => rw [stepRow_fst_of_outcome_none ho]
  | some p =>
    obtain ⟨lo, hi⟩ := p
    rw [(stepRow_fst_of_outcome_some ho).2, setAt_cell_other_col h3 _ _ _,
      setAt_cell_other_col h2 _ _ _, setAt_cell_other_col h1 _ _ _]

/-! ## Loop lemmas (source line 98) -/

theorem runRows_cons (fetch : String → Option String) (delay : ℚ)
    (df : DataFrame) (i : Nat) (url : Cell) (rest : List (Nat × Cell)) :
    runRows fetch delay df ((i, url) :: rest) =
      ((runRows fetch delay (stepRow fetch delay df i url).1 rest).1,
        (stepRow fetch delay df i url).2 ++
          (runRows fetch delay (stepRow fetch delay df i url).1 rest).2) := rfl

theorem runRows_columns (fetch : String → Option String) (delay : ℚ) :
    ∀ (L : List (Nat × Cell)) (df : DataFrame),
      (runRows fetch delay df L).1.columns = df.columns := by
  intro L
  induction L with
  | nil => intro df; rfl
  | cons p rest ih =>
    intro df
    obtain ⟨i, url⟩ := p
    rw [runRows_cons]
    rw [ih, stepRow_columns]

theorem runRows_rows_length (fetch : String → Option String) (delay : ℚ) :
    ∀ (L : List (Nat × Cell)) (df : DataFrame),
      (runRows fetch delay df L).1.rows.length = df.rows.length := by
  intro L
  induction L with
  | nil => intro df; rfl
  | cons p rest ih =>
    intro df
    obtain ⟨i, url⟩ := p
    rw [runRows_cons]
    rw [ih, stepRow_rows_length]

theorem runRows_WF (fetch : String → Option String) (delay : ℚ) :
    ∀ (L : List (Nat × Cell)) {df : DataFrame}, df.WF →
      (runRows fetch delay df L).1.WF := by
  intro L
  induction L with
  | nil => intro df hwf; exact hwf
  | cons p rest ih =>
    intro df hwf
    obtain ⟨i, url⟩ := p
    rw [runRows_cons]
    exact ih (stepRow_WF hwf i url)

theorem runRows_cell_frame (fetch : String → Option String) (delay : ℚ)
    {c : String} (h1 : c ≠ low_high_col) (h2 : c ≠ low_col) (h3 : c ≠ high_col) :
    ∀ (L : List (Nat × Cell)) (df : DataFrame) (i : Nat),
      (runRows fetch delay df L).1.cell i c = df.cell i c := by
  intro L
  induction L with
  | nil => intro df i; rfl
  | cons p rest ih =>
    intro df i
    obtain ⟨j, url⟩ := p
    rw [runRows_cons]
    rw [ih, stepRow_cell_other_col h1 h2 h3 i]

theorem runRows_cell_of_skipped (fetch : String → Option String) (delay : ℚ) (i : Nat) :
    ∀ (L : List (Nat × Cell)) (df : DataFrame),
      (∀ p ∈ L, p.1 = i → rowOutcome fetch p.2 = none) →
      ∀ c, (runRows fetch delay df L).1.cell i c = df.cell i c := by
  intro L
  induction L with
  | nil => intro df _ c; rfl
  | cons p rest ih =>
    intro df hL c
    obtain ⟨j, url⟩ := p
    rw [runRows_cons]
    rw [ih _ (fun q hq hqi => hL q (List.mem_cons_of_mem _ hq) hqi)]
    by_cases hj : j = i
    · subst hj
      rw [stepRow_fst_of_outcome_none (hL (j, url) (List.mem_cons_self _ _) rfl)]
    · rw [stepRow_cell_other_row (fun hh => hj hh.symm) url c]

/-! ## Enumeration and congruence lemmas -/

theorem mem_enumFrom {l : List Cell} :
    ∀ {n : Nat} {p : Nat × Cell}, p ∈ enumFrom n l →
      n ≤ p.1 ∧ p.1 - n < l.length ∧ l.getD (p.1 - n) Cell.na = p.2 := by
  induction l with
  | nil =>
    intro n p h
    cases h
  | cons c cs ih =>
    intro n p h
    rw [enumFrom] at h
    rcases List.mem_cons.1 h with rfl | h2
    · simp
    · obtain ⟨h1, h2', h3⟩ := ih h2
      refine ⟨by omega, ?_, ?_⟩
      · simp only [List.length_cons]
        omega
      · have hs : p.1 - n = (p.1 - (n + 1)) + 1 := by omega
        rw [hs]
        simpa using h3

theorem snd_mem_of_mem_enumFrom {l : List Cell} {n : Nat} {p : Nat × Cell}
    (h : p ∈ enumFrom n l) : p.2 ∈ l := by
  obtain ⟨-, hlt, hget⟩ := mem_enumFrom h
  rw [List.getD_eq_getElem?_getD, List.getElem?_eq_getElem hlt] at hget
  simp only [Option.getD_some] at hget
  rw [← hget]
  exact List.getElem_mem hlt

theorem stepRow_congr {f1 f2 : String → Option String} {delay : ℚ}
    {df : DataFrame} {i : Nat} {url : Cell}
    (h : blankUrl url = false → f1 (pyStrip (cellStr url)) = f2 (pyStrip (cellStr url))) :
    stepRow f1 delay df i url = stepRow f2 delay df i url := by
  by_cases hb : blankUrl url
  · rw [stepRow_of_blank hb, stepRow_of_blank hb]
  · have hb2 : blankUrl url = false := by simpa using hb
    unfold stepRow
    rw [if_neg hb, if_neg hb]
    simp only [h hb2]

theorem runRows_congr (f1 f2 : String → Option String) (delay : ℚ) :
    ∀ (L : List (Nat × Cell)) (df : DataFrame),
      (∀ p ∈ L, blankUrl p.2 = false →
        f1 (pyStrip (cellStr p.2)) = f2 (pyStrip (cellStr p.2))) →
      runRows f1 delay df L = runRows f2 delay df L := by
  intro L
  induction L with
  | nil =>
    intro df _
    rfl
  | cons p rest ih =>
    intro df hL
    obtain ⟨i, url⟩ := p
    rw [runRows_cons, runRows_cons]
    have hstep : stepRow f1 delay df i url = stepRow f2 delay df i url :=
      stepRow_congr (hL (i, url) (List.mem_cons_self _ _))
    rw [hstep, ih _ (fun q hq => hL q (List.mem_cons_of_mem _ hq))]

/-! ## Row-consistency invariant -/

theorem stepRow_preserves_consistent {fetch : String → Option String} {delay : ℚ}
    {df : DataFrame} (hwf : df.WF)
    (hlh : (colIdx df low_high_col).isSome) (hlo : (colIdx df low_col).isSome)
    (hhi : (colIdx df high_col).isSome) (i : Nat) (url : Cell) {i' : Nat}
    (hi' : i' < df.rows.length) (hinv : rowConsistent df i') :
    rowConsistent (stepRow fetch delay df i url).1 i' := by
  cases ho : rowOutcome fetch url with
  | none =>
    unfold rowConsistent
    rw [stepRow_fst_of_outcome_none ho]
    exact hinv
  | some q =>
    obtain ⟨lo, hi⟩ := q
    unfold rowConsistent
    rw [(stepRow_fst_of_outcome_some ho).2]
    obtain ⟨j1, hj1⟩ := Option.isSome_iff_exists.1 hlh
    obtain ⟨j2, hj2⟩ := Option.isSome_iff_exists.1 hlo
    obtain ⟨j3, hj3⟩ := Option.isSome_iff_exists.1 hhi
    by_cases hii : i' = i
    · subst hii
      right
      refine ⟨lo, hi, ?_, ?_, ?_⟩
      · rw [setAt_cell_other_col (by decide) _ _ _, setAt_cell_other_col (by decide) _ _ _]
        exact setAt_cell_same hj1 hwf hi' _
      · rw [setAt_cell_other_col (by decide) _ _ _]
        refine setAt_cell_same (j := j2) ?_ (setAt_WF hwf _ _ _) ?_ _
        · rw [colIdx_setAt]
          exact hj2
        · rw [setAt_rows_length]
          exact hi'
      · refine setAt_cell_same (j := j3) ?_ (setAt_WF (setAt_WF hwf _ _ _) _ _ _) ?_ _
        · rw [colIdx_setAt, colIdx_setAt]
          exact hj3
        · rw [setAt_rows_length, setAt_rows_length]
          exact hi'
    · have e1 : (((df.setAt i low_high_col
          (Cell.str (toString lo ++ "-" ++ toString hi))).setAt
            i low_col (Cell.int lo)).setAt i high_col (Cell.int hi)).cell i' low_high_col =
          df.cell i' low_high_col := by
        rw [setAt_cell_other_row hii _ _ _, setAt_cell_other_row hii _ _ _,
          setAt_cell_other_row hii _ _ _]
      have e2 : (((df.setAt i low_high_col
          (Cell.str (toString lo ++ "-" ++ toString hi))).setAt
            i low_col (Cell.int lo)).setAt i high_col (Cell.int hi)).cell i' low_col =
          df.cell i' low_col := by
        rw [setAt_cell_other_row hii _ _ _, setAt_cell_other_row hii _ _ _,
          setAt_cell_other_row hii _ _ _]
      have e3 : (((df.setAt i low_high_col
          (Cell.str (toString lo ++ "-" ++ toString hi))).setAt
            i low_col (Cell.int lo)).setAt i high_col (Cell.int hi)).cell i' high_col =
          df.cell i' high_col := by
        rw [setAt_cell_other_row hii _ _ _, setAt_cell_other_row hii _ _ _,
          setAt_cell_other_row hii _ _ _]
      rw [e1, e2, e3]
      exact hinv

theorem runRows_preserves_consistent (fetch : String → Option String) (delay : ℚ) :
    ∀ (L : List (Nat × Cell)) (df : DataFrame), df.WF →
      (colIdx df low_high_col).isSome → (colIdx df low_col).isSome →
      (colIdx df high_col).isSome →
      (∀ i', i' < df.rows.length → rowConsistent df i') →
      ∀ i', i' < df.rows.length → rowConsistent (runRows fetch delay df L).1 i' := by
  intro L
  induction L with
  | nil =>
    intro df _ _ _ _ hinv i' hi'
    exact hinv i' hi'
  | cons p rest ih =>
    intro df hwf hlh hlo hhi hinv i' hi'
    obtain ⟨i, url⟩ := p
    rw [runRows_cons]
    refine ih _ (stepRow_WF hwf i url) ?_ ?_ ?_ ?_ i' ?_
    · rw [colIdx_stepRow]
      exact hlh
    · rw [colIdx_stepRow]
      exact hlo
    · rw [colIdx_stepRow]
      exact hhi
    · intro k hk
      rw [stepRow_rows_length] at hk
      exact stepRow_preserves_consistent hwf hlh hlo hhi i url hk (hinv k hk)
    · rw [stepRow_rows_length]
      exact hi'

theorem col_length_of_mem {df : DataFrame} {c : String} (h : c ∈ df.columns) :
    (df.col c).length = df.rows.length := by
  obtain ⟨j, hj⟩ := colIdx_of_mem h
  unfold DataFrame.col
  rw [hj]
  simp

theorem toList_append (a b : String) : (a ++ b).toList = a.toList ++ b.toList := rfl

theorem pyQuoted_toList (s : String) :
    (pyQuoted s).toList = Char.ofNat 39 :: (s.toList ++ [Char.ofNat 39]) := by
  unfold pyQuoted
  rw [toList_append, toList_append]
  rfl

theorem infix_pyReprSeq {c : String} {cols : List String} (h : c ∈ cols) :
    c.toList <:+: (pyReprSeq cols).toList := by
  induction cols with
  | nil => cases h
  | cons a rest ih =>
    cases rest with
    | nil =>
      rw [List.mem_singleton] at h
      subst h
      refine ⟨[Char.ofNat 39], [Char.ofNat 39], ?_⟩
      rw [show pyReprSeq [c] = pyQuoted c from rfl, pyQuoted_toList]
      simp
    | cons b bs =>
      rw [show pyReprSeq (a :: b :: bs) = pyQuoted a ++ ", " ++ pyReprSeq (b :: bs) from rfl,
        toList_append, toList_append, pyQuoted_toList]
      rcases List.mem_cons.1 h with rfl | h2
      · exact ⟨[Char.ofNat 39],
          [Char.ofNat 39] ++ ", ".toList ++ (pyReprSeq (b :: bs)).toList, by simp⟩
      · obtain ⟨s, t, hst⟩ := ih h2
        exact ⟨(Char.ofNat 39 :: (a.toList ++ [Char.ofNat 39])) ++ ", ".toList ++ s, t,
          by rw [← hst]; simp⟩

theorem mem_infix_errorMsg {c : String} {cols : List String} (h : c ∈ cols)
    (urlCol : String) : c.toList <:+: (urlColErrorMsg urlCol cols).toList := by
  obtain ⟨s, t, hst⟩ := infix_pyReprSeq h
  unfold urlColErrorMsg pyListRepr
  refine ⟨("URL column " ++ pyQuoted urlCol ++
      " not found. Available columns: ").toList ++ "[".toList ++ s,
    t ++ "]".toList, ?_⟩
  simp only [toList_append, ← hst]
  simp

/-- C4: for every row where a fetch is attempted (URL not blank), if the
fetch fails for any reason or extraction returns nothing, the row's
three output fields in the written dataframe are exactly the defaults
(`"N/A"`, absent, absent); the row's step leaves any intermediate
dataframe unchanged and contributes only its request and sleep events,
so no failure escapes the row and the remaining rows are processed from
an unchanged state. -/
theorem C4_failure_defaults (fetch : String → Option String) (urlCol : String)
    (delay : ℚ) (df : DataFrame) (hwf : df.WF) (hcol : urlCol ∈ df.columns)
    (h1 : urlCol ≠ low_high_col) (h2 : urlCol ≠ low_col) (h3 : urlCol ≠ high_col)
    (i : Nat) (url : Cell) (hurl : (df.col urlCol).getD i Cell.na = url)
    (hblank : blankUrl url = false)
    (hfail : fetch (pyStrip (cellStr url)) = none ∨
      ∃ t, fetch (pyStrip (cellStr url)) = some t ∧
        extract_price_range_from_html t = none) :
    ∃ out events, mainRun fetch urlCol delay df = Except.ok (out, events) ∧
      out.cell i low_high_col = Cell.str "N/A" ∧
      out.cell i low_col = Cell.na ∧ out.cell i high_col = Cell.na ∧
      ∀ d2 : DataFrame, stepRow fetch delay d2 i url =
        (d2, [Event.request (pyStrip (cellStr url)), Event.sleep (max 0 delay)]) := by
  have hco : (initCols df).col urlCol = df.col urlCol := initCols_col_other hwf h1 h2 h3
  have hi : i < df.rows.length := by
    by_contra hge
    push_neg at hge
    have hlen : (df.col urlCol).length = df.rows.length := col_length_of_mem hcol
    have hna : (df.col urlCol).getD i Cell.na = Cell.na := by
      rw [List.getD_eq_getElem?_getD, List.getElem?_eq_none (by omega)]
      rfl
    rw [hurl] at hna
    rw [hna] at hblank
    simp [blankUrl, cellIsNA] at hblank
  have ho : rowOutcome fetch url = none := by
    unfold rowOutcome
    rw [if_neg (by simp [hblank])]
    rcases hfail with hf | ⟨t, hf, he⟩
    · rw [hf]
    · rw [hf]
      simpa using he
  have hstep : ∀ d2 : DataFrame, stepRow fetch delay d2 i url =
      (d2, [Event.request (pyStrip (cellStr url)), Event.sleep (max 0 delay)]) := by
    intro d2
    have hfst : (stepRow fetch delay d2 i url).1 = d2 := stepRow_fst_of_outcome_none ho
    have hev : (stepRow fetch delay d2 i url).2 =
        [Event.request (pyStrip (cellStr url)), Event.sleep (max 0 delay)] :=
      stepRow_events hblank
    calc stepRow fetch delay d2 i url
        = ((stepRow fetch delay d2 i url).1, (stepRow fetch delay d2 i url).2) := rfl
      _ = (d2, [Event.request (pyStrip (cellStr url)), Event.sleep (max 0 delay)]) := by
          rw [hfst, hev]
  have hL : ∀ p ∈ (initCols df).items urlCol, p.1 = i → rowOutcome fetch p.2 = none := by
    intro p hp hpi
    unfold DataFrame.items at hp
    rw [hco] at hp
    obtain ⟨-, hlt, hget⟩ := mem_enumFrom hp
    simp only [Nat.sub_zero] at hlt hget
    rw [hpi, hurl] at hget
    rw [← hget]
    exact ho
  have hcell := runRows_cell_of_skipped fetch delay i ((initCols df).items urlCol)
    (initCols df) hL
  obtain ⟨d1, d2c, d3⟩ := initCols_cell_defaults hwf hi
  refine ⟨(runRows fetch delay (initCols df) ((initCols df).items urlCol)).1,
    (runRows fetch delay (initCols df) ((initCols df).items urlCol)).2,
    ?_, ?_, ?_, ?_, hstep⟩
  · unfold mainRun
    rw [if_pos hcol]
  · rw [hcell low_high_col, d1]
  · rw [hcell low_col, d2c]
  · rw [hcell high_col, d3]

/-- Witness for C4: one row whose fetch always fails ends with the three
defaults, and its step never disturbs the dataframe. -/
theorem C4_failure_defaults_witness :
    ∃ out events,
      mainRun (fun _ => none) "url" 0
          (⟨["url"], [[Cell.str "http://x"]]⟩ : DataFrame) =
        Except.ok (out, events) ∧
      out.cell 0 low_high_col = Cell.str "N/A" ∧
      out.cell 0 low_col = Cell.na ∧ out.cell 0 high_col = Cell.na ∧
      ∀ d2 : DataFrame, stepRow (fun _ => none) 0 d2 0 (Cell.str "http://x") =
        (d2, [Event.request (pyStrip (cellStr (Cell.str "http://x"))),
          Event.sleep (max 0 0)]) :=
  C4_failure_defaults (fun _ => none) "url" 0 ⟨["url"], [[Cell.str "http://x"]]⟩
    (by unfold DataFrame.WF; decide) (by decide) (by decide) (by decide) (by decide)
    0 (Cell.str "http://x") (by decide) (by decide) (Or.inl rfl)

/-- C5: for every row whose URL cell is missing (`NaN`) or blank after
trimming, no fetch happens — the row's step returns any dataframe
unchanged with an empty event trace (no request, and also no sleep) —
and the row's three output fields in the written dataframe stay at their
initialized defaults (`"N/A"`, absent, absent). -/
theorem C5_blank_url_skip (fetch : String → Option String) (urlCol : String)
    (delay : ℚ) (df : DataFrame) (hwf : df.WF) (hcol : urlCol ∈ df.columns)
    (h1 : urlCol ≠ low_high_col) (h2 : urlCol ≠ low_col) (h3 : urlCol ≠ high_col)
    (i : Nat) (url : Cell) (hurl : (df.col urlCol).getD i Cell.na = url)
    (hblank : blankUrl url = true) (hi : i < df.rows.length) :
    ∃ out events, mainRun fetch urlCol delay df = Except.ok (out, events) ∧
      out.cell i low_high_col = Cell.str "N/A" ∧
      out.cell i low_col = Cell.na ∧ out.cell i high_col = Cell.na ∧
      ∀ d2 : DataFrame, stepRow fetch delay d2 i url = (d2, []) := by
  have hco : (initCols df).col urlCol = df.col urlCol := initCols_col_other hwf h1 h2 h3
  have ho : rowOutcome fetch url = none := by
    unfold rowOutcome
    rw [if_pos hblank]
  have hstep : ∀ d2 : DataFrame, stepRow fetch delay d2 i url = (d2, []) :=
    fun d2 => stepRow_of_blank hblank
  have hL : ∀ p ∈ (initCols df).items urlCol, p.1 = i → rowOutcome fetch p.2 = none := by
    intro p hp hpi
    unfold DataFrame.items at hp
    rw [hco] at hp
    obtain ⟨-, hlt, hget⟩ := mem_enumFrom hp
    simp only [Nat.sub_zero] at hlt hget
    rw [hpi, hurl] at hget
    rw [← hget]
    exact ho
  have hcell := runRows_cell_of_skipped fetch delay i ((initCols df).items urlCol)
    (initCols df) hL
  obtain ⟨d1, d2c, d3⟩ := initCols_cell_defaults hwf hi
  refine ⟨(runRows fetch delay (initCols df) ((initCols df).items urlCol)).1,
    (runRows fetch delay (initCols df) ((initCols df).items urlCol)).2,
    ?_, ?_, ?_, ?_, hstep⟩
  · unfold mainRun
    rw [if_pos hcol]
  · rw [hcell low_high_col, d1]
  · rw [hcell low_col, d2c]
  · rw [hcell high_col, d3]

/-- Witness for C5: a whitespace-only URL row keeps the defaults, and
its step performs no request and no sleep. -/
theorem C5_blank_url_skip_witness :
    ∃ out events,
      mainRun (fun _ => some "Price Range: 8-9 points") "url" 0
          (⟨["url"], [[Cell.str "   "]]⟩ : DataFrame) =
        Except.ok (out, events) ∧
      out.cell 0 low_high_col = Cell.str "N/A" ∧
      out.cell 0 low_col = Cell.na ∧ out.cell 0 high_col = Cell.na ∧
      ∀ d2 : DataFrame, stepRow (fun _ => some "Price Range: 8-9 points") 0 d2 0
        (Cell.str "   ") = (d2, []) :=
  C5_blank_url_skip (fun _ => some "Price Range: 8-9 points") "url" 0
    ⟨["url"], [[Cell.str "   "]]⟩ (by unfold DataFrame.WF; decide) (by decide)
    (by decide) (by decide) (by decide) 0 (Cell.str "   ") (by decide) (by decide)
    (by decide)

/-- C6: when the configured URL column is absent, the run fails before
any row is processed: `main` raises `SystemExit` (modelled as
`Except.error`, so the dataframe is never written and no `Except.ok`
output exists) with the descriptive message of lines 85-87, and that
message contains every actually-available column name. -/
theorem C6_missing_column (fetch : String → Option String) (urlCol : String)
    (delay : ℚ) (df : DataFrame) (h : urlCol ∉ df.columns) :
    mainRun fetch urlCol delay df = Except.error (urlColErrorMsg urlCol df.columns) ∧
      (∀ out events, mainRun fetch urlCol delay df ≠ Except.ok (out, events)) ∧
      ∀ c ∈ df.columns, c.toList <:+: (urlColErrorMsg urlCol df.columns).toList := by
  have he : mainRun fetch urlCol delay df =
      Except.error (urlColErrorMsg urlCol df.columns) := by
    unfold mainRun
    rw [if_neg h]
  refine ⟨he, ?_, ?_⟩
  · intro out events
    rw [he]
    simp
  · intro c hc
    exact mem_infix_errorMsg hc urlCol

/-- Witness for C6: a two-column dataset without the configured URL
column aborts with the message listing both columns. -/
theorem C6_missing_column_witness :
    mainRun (fun _ => none) "smogon_draft_url" 0
        (⟨["name", "tier"], [[Cell.str "pika", Cell.str "OU"]]⟩ : DataFrame) =
      Except.error (urlColErrorMsg "smogon_draft_url" ["name", "tier"]) ∧
      (∀ out events, mainRun (fun _ => none) "smogon_draft_url" 0
        (⟨["name", "tier"], [[Cell.str "pika", Cell.str "OU"]]⟩ : DataFrame) ≠
          Except.ok (out, events)) ∧
      ∀ c ∈ ["name", "tier"],
        c.toList <:+: (urlColErrorMsg "smogon_draft_url" ["name", "tier"]).toList :=
  C6_missing_column (fun _ => none) "smogon_draft_url" 0
    ⟨["name", "tier"], [[Cell.str "pika", Cell.str "OU"]]⟩ (by decide)

/-- C7: the pipeline first resets the three output columns to their
defaults on every row (old values are overwritten, never merged); the
written dataframe keeps the original columns in their original order
with the three output columns appended at the end exactly when newly
created; and no cell outside the three output columns changes. -/
theorem C7_frame (fetch : String → Option String) (urlCol : String) (delay : ℚ)
    (df : DataFrame) (hwf : df.WF) (hcol : urlCol ∈ df.columns) :
    ∃ out events, mainRun fetch urlCol delay df = Except.ok (out, events) ∧
      (∀ i, i < df.rows.length →
        (initCols df).cell i low_high_col = Cell.str "N/A" ∧
          (initCols df).cell i low_col = Cell.na ∧
          (initCols df).cell i high_col = Cell.na) ∧
      out.columns = df.columns ++ addedCols df.columns ∧
      ∀ i c, c ≠ low_high_col → c ≠ low_col → c ≠ high_col →
        out.cell i c = df.cell i c := by
  refine ⟨(runRows fetch delay (initCols df) ((initCols df).items urlCol)).1,
    (runRows fetch delay (initCols df) ((initCols df).items urlCol)).2,
    ?_, ?_, ?_, ?_⟩
  · unfold mainRun
    rw [if_pos hcol]
  · intro i hi
    exact initCols_cell_defaults hwf hi
  · rw [runRows_columns, initCols_columns]
  · intro i c hc1 hc2 hc3
    rw [runRows_cell_frame fetch delay hc1 hc2 hc3, initCols_cell_other hwf hc1 hc2 hc3]

/-- Witness for C7: on a dataset with a prior-run value in an output
column, the value is overwritten, the original columns keep their
order, and the non-output cell is untouched. -/
theorem C7_frame_witness :
    ∃ out events,
      mainRun (fun _ => none) "url" 0
          (⟨["url", "smogon_price_low_high"],
            [[Cell.str "http://x", Cell.str "7-9"]]⟩ : DataFrame) =
        Except.ok (out, events) ∧
      (∀ i, i < (⟨["url", "smogon_price_low_high"],
          [[Cell.str "http://x", Cell.str "7-9"]]⟩ : DataFrame).rows.length →
        (initCols ⟨["url", "smogon_price_low_high"],
          [[Cell.str "http://x", Cell.str "7-9"]]⟩).cell i low_high_col =
            Cell.str "N/A" ∧
          (initCols ⟨["url", "smogon_price_low_high"],
            [[Cell.str "http://x", Cell.str "7-9"]]⟩).cell i low_col = Cell.na ∧
          (initCols ⟨["url", "smogon_price_low_high"],
            [[Cell.str "http://x", Cell.str "7-9"]]⟩).cell i high_col = Cell.na) ∧
      out.columns = ["url", "smogon_price_low_high"] ++
        addedCols ["url", "smogon_price_low_high"] ∧
      ∀ i c, c ≠ low_high_col → c ≠ low_col → c ≠ high_col →
        out.cell i c = (⟨["url", "smogon_price_low_high"],
          [[Cell.str "http://x", Cell.str "7-9"]]⟩ : DataFrame).cell i c :=
  C7_frame (fun _ => none) "url" 0
    ⟨["url", "smogon_price_low_high"], [[Cell.str "http://x", Cell.str "7-9"]]⟩
    (by unfold DataFrame.WF; decide) (by decide)

/-- C8: the pacing sleep of line 120 is `max 0 delay` (clamped to be
nonnegative even for a negative configured delay) and is emitted exactly
when a request was attempted — after every non-blank row regardless of
the fetch outcome (the `fetch` oracle here is arbitrary, covering
failures) — while a blank-URL row emits neither request nor sleep. -/
theorem C8_delay_pacing (fetch : String → Option String) (delay : ℚ)
    (df : DataFrame) (i : Nat) (url : Cell) :
    (blankUrl url = true → stepRow fetch delay df i url = (df, [])) ∧
      (blankUrl url = false →
        (stepRow fetch delay df i url).2 =
          [Event.request (pyStrip (cellStr url)), Event.sleep (max 0 delay)]) ∧
      (0 : ℚ) ≤ max 0 delay ∧ (delay < 0 → max 0 delay = 0) :=
  ⟨fun h => stepRow_of_blank h, fun h => stepRow_events h, le_max_left 0 delay,
    fun h => max_eq_left (le_of_lt h)⟩

/-- Witness for C8: with a failing fetch and delay −1, a non-blank row
still requests and sleeps, the sleep amount is clamped to 0, and a blank
row emits nothing. -/
theorem C8_delay_pacing_witness :
    stepRow (fun _ => none) (-1) (⟨["u"], [[Cell.na]]⟩ : DataFrame) 0 Cell.na =
      ((⟨["u"], [[Cell.na]]⟩ : DataFrame), []) ∧
      (stepRow (fun _ => none) (-1) (⟨["u"], [[Cell.str "x"]]⟩ : DataFrame) 0
        (Cell.str "x")).2 =
        [Event.request (pyStrip (cellStr (Cell.str "x"))),
          Event.sleep (max 0 (-1))] ∧
      (0 : ℚ) ≤ max 0 (-1 : ℚ) ∧ ((-1 : ℚ) < 0 → max 0 (-1 : ℚ) = 0) :=
  ⟨(C8_delay_pacing (fun _ => none) (-1) ⟨["u"], [[Cell.na]]⟩ 0 Cell.na).1 (by decide),
    (C8_delay_pacing (fun _ => none) (-1) ⟨["u"], [[Cell.str "x"]]⟩ 0
      (Cell.str "x")).2.1 (by decide),
    (C8_delay_pacing (fun _ => none) (-1) ⟨["u"], [[Cell.na]]⟩ 0 Cell.na).2.2⟩

/-- C9: the pipeline is deterministic given fixed remote responses: two
runs on the same input dataframe whose fetch oracles agree on every URL
the loop actually requests produce identical results (dataframe and
event trace alike). -/
theorem C9_deterministic (f1 f2 : String → Option String) (urlCol : String)
    (delay : ℚ) (df : DataFrame)
    (h : ∀ u ∈ fetchedUrls df urlCol, f1 u = f2 u) :
    mainRun f1 urlCol delay df = mainRun f2 urlCol delay df := by
  unfold mainRun
  by_cases hcol : urlCol ∈ df.columns
  · rw [if_pos hcol, if_pos hcol]
    have hcongr : ∀ p ∈ (initCols df).items urlCol, blankUrl p.2 = false →
        f1 (pyStrip (cellStr p.2)) = f2 (pyStrip (cellStr p.2)) := by
      intro p hp hb
      apply h
      unfold fetchedUrls
      rw [List.mem_filterMap]
      refine ⟨p.2, ?_, by simp [hb]⟩
      unfold DataFrame.items at hp
      exact snd_mem_of_mem_enumFrom hp
    show Except.ok (runRows f1 delay (initCols df) ((initCols df).items urlCol)) =
      Except.ok (runRows f2 delay (initCols df) ((initCols df).items urlCol))
    rw [runRows_congr f1 f2 delay ((initCols df).items urlCol) (initCols df) hcongr]
  · rw [if_neg hcol, if_neg hcol]

/-- Witness for C9: two globally different oracles that agree on the one
fetched URL give the same run. -/
theorem C9_deterministic_witness :
    mainRun (fun u => if u = "http://x" then some "Price Range: 8-9 points" else none)
        "url" 0 (⟨["url"], [[Cell.str " http://x "]]⟩ : DataFrame) =
      mainRun (fun u => if u = "http://x" then some "Price Range: 8-9 points"
          else some "other") "url" 0
        (⟨["url"], [[Cell.str " http://x "]]⟩ : DataFrame) :=
  C9_deterministic _ _ "url" 0 ⟨["url"], [[Cell.str " http://x "]]⟩ (by decide)

/-- C10 (implicit invariant): in the written dataframe every row is
consistent: either all three output fields hold their defaults
(`"N/A"`, absent, absent), or all three are set together with the label
exactly `"{low}-{high}"` of the two numeric fields — never a label
without the numbers or vice versa. -/
theorem C10_row_consistency (fetch : String → Option String) (urlCol : String)
    (delay : ℚ) (df : DataFrame) (hwf : df.WF) (hcol : urlCol ∈ df.columns) :
    ∃ out events, mainRun fetch urlCol delay df = Except.ok (out, events) ∧
      ∀ i, i < out.rows.length → rowConsistent out i := by
  obtain ⟨hs1, hs2, hs3⟩ := initCols_colIdx_isSome df
  refine ⟨(runRows fetch delay (initCols df) ((initCols df).items urlCol)).1,
    (runRows fetch delay (initCols df) ((initCols df).items urlCol)).2, ?_, ?_⟩
  · unfold mainRun
    rw [if_pos hcol]
  · intro i hi
    rw [runRows_rows_length] at hi
    refine runRows_preserves_consistent fetch delay ((initCols df).items urlCol)
      (initCols df) (initCols_WF hwf) hs1 hs2 hs3 ?_ i hi
    intro k hk
    rw [initCols_rows_length] at hk
    obtain ⟨d1, d2, d3⟩ := initCols_cell_defaults hwf hk
    exact Or.inl ⟨d1, d2, d3⟩

/-- Witness for C10: a two-row run — one successful extraction, one
missing URL — satisfies the all-or-nothing row consistency. -/
theorem C10_row_consistency_witness :
    ∃ out events,
      mainRun (fun _ => some "Price Range: 8-9 points") "url" 0
          (⟨["url"], [[Cell.str "http://x"], [Cell.na]]⟩ : DataFrame) =
        Except.ok (out, events) ∧
      ∀ i, i < out.rows.length → rowConsistent out i :=
  C10_row_consistency (fun _ => some "Price Range: 8-9 points") "url" 0
    ⟨["url"], [[Cell.str "http://x"], [Cell.na]]⟩
    (by unfold DataFrame.WF; decide) (by decide)

end Scrape
